import Mathlib

/-!
Shallow embedding of `src/send.py` (a concurrent bulk-mail dispatch engine)
and proofs checking the natural-language specification against it.

Conventions used throughout:
* A credential (`smtp_detail` in the source) is the tuple produced by
  `tuple(line.strip().split('|'))` in `load_smtp_details`, i.e. a list of
  strings of arbitrary arity; a well-formed credential has exactly four
  fields (host, port, principal, secret).
* The shared state guarded by `failed_smtp_lock` (the `failed_smtp`
  counters and the `smtp_failures_to_remove` set) is modelled as an
  explicit state record; each critical section of the source becomes one
  atomic state-transition function, and a concurrent execution is a list
  of such transitions applied in the serialization order imposed by the
  lock.
* Network behaviour is an oracle: for each attempt index and connection
  mode it says whether that mode, if executed, would succeed, fail with
  an SMTP-level error (`smtplib.SMTPException`, which the per-mode
  handlers catch), or fail with any other exception (`OSError`,
  `socket.timeout`, ..., caught only by the outer `except Exception`).
-/

namespace Send

/-- A transport credential: the tuple `tuple(line.strip().split('|'))`
built by `load_smtp_details` (src/send.py line 32).  Arity is not fixed
by the loader, so the model is a list of fields. -/
abbrev Cred := List String

/-- `is_valid_email` (src/send.py lines 24-25): the address must contain
at least one `@` and at least one `.` (Python `in` on single-character
needles is character membership). -/
def is_valid_email (email : String) : Bool :=
  email.toList.contains '@' && email.toList.contains '.'

/-- The whitespace characters Python's `str.strip()` removes. -/
def isPythonSpace (c : Char) : Bool :=
  c == ' ' || c == '\t' || c == '\n' || c == '\r' || c == '\x0b' || c == '\x0c'

/-- Python's `str.strip()`: drop leading and trailing whitespace. -/
def pythonStrip (s : String) : String :=
  String.mk
    (((s.toList.dropWhile isPythonSpace).reverse.dropWhile
      isPythonSpace).reverse)

/-- The value of a non-empty all-digit character list. -/
def digitsToNat (l : List Char) : Nat :=
  l.foldl (fun acc c => acc * 10 + (c.toNat - 48)) 0

/-- Model of Python's `int(s)` on a string (src/send.py line 107):
leading/trailing whitespace is stripped, one optional sign is allowed,
and the rest must be a non-empty digit string; anything else raises
`ValueError` (modelled as `none`).  Underscore digit separators of
Python numeric literals are not modelled. -/
def pythonInt (s : String) : Option Int :=
  match (pythonStrip s).toList with
  | [] => none
  | c :: rest =>
    if c == '-' then
      if !rest.isEmpty && rest.all Char.isDigit then
        some (-(digitsToNat rest : Int))
      else none
    else if c == '+' then
      if !rest.isEmpty && rest.all Char.isDigit then
        some ((digitsToNat rest : Int))
      else none
    else
      if (c :: rest).all Char.isDigit then
        some ((digitsToNat (c :: rest) : Int))
      else none

/-! ## FailureTracker: `failed_smtp`, `smtp_failures_to_remove`
(src/send.py lines 173-178, initialised at lines 225-227). -/

/-- The shared mutable state guarded by `failed_smtp_lock`:
`failed_smtp` is a `defaultdict(int)` (every key starts at 0) and
`smtp_failures_to_remove` is a Python set. -/
structure Tracker where
  counts : Cred → Nat
  evict : Finset Cred

/-- The fresh state built at the start of `send_emails`
(src/send.py lines 225-227): all counters 0, empty eviction set. -/
def freshTracker : Tracker :=
  { counts := fun _ => 0, evict := ∅ }

/-- The critical section of the failure branch of `email_task`
(src/send.py lines 173-178), executed atomically under
`failed_smtp_lock`: increment `failed_smtp[smtp_detail]`; if the
post-increment value is `>= 10`, add the credential to
`smtp_failures_to_remove`. -/
def recordFailure (st : Tracker) (c : Cred) : Tracker :=
  let n := st.counts c + 1
  { counts := Function.update st.counts c n
    evict := if 10 ≤ n then insert c st.evict else st.evict }

/-- A serialized history of `recordFailure` critical sections (the lock
imposes a total order on them); `runFailures` replays it. -/
def runFailures (st : Tracker) : List Cred → Tracker
  | [] => st
  | c :: cs => runFailures (recordFailure st c) cs

theorem counts_recordFailure (st : Tracker) (c d : Cred) :
    (recordFailure st c).counts d =
      if d = c then st.counts d + 1 else st.counts d := by
  by_cases h : d = c
  · subst h; simp [recordFailure]
  · simp [recordFailure, Function.update_noteq h, h]

theorem counts_runFailures (cs : List Cred) (st : Tracker) (c : Cred) :
    (runFailures st cs).counts c = st.counts c + cs.count c := by
  induction cs generalizing st with
  | nil => simp [runFailures]
  | cons d cs ih =>
      rw [runFailures, ih, counts_recordFailure]
      by_cases h : c = d
      · subst h; simp [List.count_cons]; omega
      · simp [List.count_cons, h]

theorem evict_recordFailure (st : Tracker) (c d : Cred) :
    c ∈ (recordFailure st d).evict ↔
      c ∈ st.evict ∨ (c = d ∧ 10 ≤ st.counts d + 1) := by
  simp only [recordFailure]
  by_cases h10 : 10 ≤ st.counts d + 1
  · rw [if_pos h10]
    simp only [Finset.mem_insert, h10, and_true]
    tauto
  · rw [if_neg h10]
    simp [h10]

theorem evict_runFailures (cs : List Cred) (st : Tracker) (c : Cred) :
    c ∈ (runFailures st cs).evict ↔
      c ∈ st.evict ∨ (0 < cs.count c ∧ 10 ≤ st.counts c + cs.count c) := by
  induction cs generalizing st with
  | nil => simp [runFailures]
  | cons d cs ih =>
      rw [runFailures, ih, evict_recordFailure, counts_recordFailure]
      by_cases h : c = d
      · subst h
        simp only [List.count_cons_self, if_pos rfl, and_true, eq_self_iff_true,
          if_true, true_and]
        by_cases hE : c ∈ st.evict
        · simp [hE]
        · simp only [hE, false_or]
          omega
      · simp [List.count_cons, h, Ne.symm h]

/-- C1 helper: `e.count c = 10` and freshness pin down the whole run. -/
theorem evict_fresh_iff (cs : List Cred) (c : Cred) :
    c ∈ (runFailures freshTracker cs).evict ↔ 10 ≤ cs.count c := by
  rw [evict_runFailures]
  simp only [freshTracker, Finset.not_mem_empty, false_or, Nat.zero_add]
  constructor
  · rintro ⟨-, h⟩; exact h
  · intro h; exact ⟨by omega, by omega⟩

/-- C1: starting from the fresh per-run state, if `recordFailure` is
invoked exactly 10 times for credential `c` (in any serialization
order, arbitrarily interleaved with invocations for other
credentials), then (i) the final counter for `c` is 10, (ii) `c` is in
the eviction set, (iii) each invocation for `c` increments its counter
by exactly one, and (iv) at every prefix of the history `c` is in the
eviction set precisely when its post-increment counter has reached 10 —
so it is added exactly at the call that first reaches 10, is absent
before that, and (the eviction set being a set) appears exactly once,
never more than once. -/
theorem recordFailure_ten_times_evicts_once (c : Cred) (cs : List Cred)
    (h : cs.count c = 10) :
    (runFailures freshTracker cs).counts c = 10 ∧
    c ∈ (runFailures freshTracker cs).evict ∧
    (∀ pre post, cs = pre ++ c :: post →
      (runFailures freshTracker (pre ++ [c])).counts c =
        (runFailures freshTracker pre).counts c + 1) ∧
    (∀ pre suffix, cs = pre ++ suffix →
      (c ∈ (runFailures freshTracker pre).evict ↔
        10 ≤ (runFailures freshTracker pre).counts c)) := by
  refine ⟨?_, ?_, ?_, ?_⟩
  · rw [counts_runFailures, h]; rfl
  · rw [evict_fresh_iff, h]
  · intro pre post hsplit
    rw [counts_runFailures, counts_runFailures, List.count_append]
    simp [freshTracker]
  · intro pre suffix hsplit
    rw [evict_fresh_iff, counts_runFailures]
    simp [freshTracker]

/-- Witness for C1 at a concrete 10-element history. -/
theorem recordFailure_ten_times_evicts_once_witness :
    (List.replicate 10 (["h", "25", "u", "p"] : Cred)).count
        ["h", "25", "u", "p"] = 10 ∧
    ((runFailures freshTracker
        (List.replicate 10 (["h", "25", "u", "p"] : Cred))).counts
        ["h", "25", "u", "p"] = 10 ∧
    ["h", "25", "u", "p"] ∈ (runFailures freshTracker
        (List.replicate 10 (["h", "25", "u", "p"] : Cred))).evict ∧
    (∀ pre post, List.replicate 10 (["h", "25", "u", "p"] : Cred) =
        pre ++ ["h", "25", "u", "p"] :: post →
      (runFailures freshTracker (pre ++ [["h", "25", "u", "p"]])).counts
          ["h", "25", "u", "p"] =
        (runFailures freshTracker pre).counts ["h", "25", "u", "p"] + 1) ∧
    (∀ pre suffix, List.replicate 10 (["h", "25", "u", "p"] : Cred) =
        pre ++ suffix →
      (["h", "25", "u", "p"] ∈ (runFailures freshTracker pre).evict ↔
        10 ≤ (runFailures freshTracker pre).counts ["h", "25", "u", "p"]))) :=
  ⟨by simp, recordFailure_ten_times_evicts_once _ _ (by simp)⟩

/-! ## Per-task tracker effect (success and failure branches of
`email_task`, src/send.py lines 169-180). -/

/-- The tracker-state effect of one completed `email_task`: on success
(`send_email` returned True) the counters are untouched (lines
169-171); on failure the `recordFailure` critical section runs (lines
172-178). -/
def taskTrackerStep (st : Tracker) (c : Cred) (success : Bool) : Tracker :=
  if success then st else recordFailure st c

/-- Replay a serialized history of task outcomes. -/
def runTasks (st : Tracker) : List (Cred × Bool) → Tracker
  | [] => st
  | (c, s) :: evs => runTasks (taskTrackerStep st c s) evs

theorem runTasks_append (l₁ l₂ : List (Cred × Bool)) (st : Tracker) :
    runTasks st (l₁ ++ l₂) = runTasks (runTasks st l₁) l₂ := by
  induction l₁ generalizing st with
  | nil => simp [runTasks]
  | cons e l₁ ih => cases e; rw [List.cons_append, runTasks, runTasks, ih]

theorem runTasks_replicate_false (n : Nat) (c : Cred) (st : Tracker) :
    runTasks st (List.replicate n (c, false)) =
      runFailures st (List.replicate n c) := by
  induction n generalizing st with
  | zero => simp [runTasks, runFailures]
  | succ n ih =>
      rw [List.replicate_succ, List.replicate_succ, runTasks, runFailures]
      simpa [taskTrackerStep] using ih (recordFailure st c)

/-- C6: every credential's failure counter is a natural number (hence
non-negative) and never decreases: a single task outcome — success or
failure — never lowers any counter, so neither does any history of
outcomes; and the concrete 9-failures-then-success history leaves the
counter at exactly 9 (eviction counts cumulative, not consecutive,
failures). -/
theorem failure_counters_monotone :
    (∀ (st : Tracker) (c : Cred) (s : Bool) (d : Cred),
      st.counts d ≤ (taskTrackerStep st c s).counts d) ∧
    (∀ (evs : List (Cred × Bool)) (st : Tracker) (d : Cred),
      st.counts d ≤ (runTasks st evs).counts d) ∧
    (∀ c : Cred,
      (runTasks freshTracker
        (List.replicate 9 (c, false) ++ [(c, true)])).counts c = 9) := by
  have hstep : ∀ (st : Tracker) (c : Cred) (s : Bool) (d : Cred),
      st.counts d ≤ (taskTrackerStep st c s).counts d := by
    intro st c s d
    cases s with
    | false =>
        rw [taskTrackerStep, if_neg (by simp), counts_recordFailure]
        by_cases h : d = c <;> simp [h]
    | true => rw [taskTrackerStep, if_pos rfl]
  refine ⟨hstep, ?_, ?_⟩
  · intro evs
    induction evs with
    | nil => intro st d; simp [runTasks]
    | cons e evs ih =>
        intro st d
        cases e with
        | mk c s => exact le_trans (hstep st c s d) (ih _ d)
  · intro c
    rw [runTasks_append, runTasks_replicate_false, runTasks,
      taskTrackerStep, if_pos rfl, runTasks, counts_runFailures]
    simp [freshTracker]

/-! ## CredentialRing: `itertools.cycle(smtp_details_list)`
(src/send.py line 229), consumed by `next(smtp_cycle)` (line 166). -/

/-- The i-th hand-out (0-indexed) of `cycle(l)`: element `i % k` of the
length-`k` list; `none` only for the empty list, which `send_emails`
refuses to dispatch with (lines 221-223). -/
def ringHandOut (l : List Cred) (i : Nat) : Option Cred :=
  l[i % l.length]?

/-- C7: for a non-empty credential list of length k, the first k
hand-outs are exactly the list in its original load order (each
credential position exactly once), the (k+1)-th call returns the first
credential again, and the hand-out sequence is periodic with period k. -/
theorem credentialRing_round_robin (l : List Cred) (h : l ≠ []) :
    (List.range l.length).map (ringHandOut l) = l.map some ∧
    ringHandOut l l.length = l[0]? ∧
    (∀ i, ringHandOut l (i + l.length) = ringHandOut l i) := by
  refine ⟨?_, ?_, ?_⟩
  · apply List.ext_getElem
    · simp
    · intro i h1 h2
      simp only [List.getElem_map, List.getElem_range]
      have hi : i < l.length := by simpa using h2
      simp [ringHandOut, Nat.mod_eq_of_lt hi, List.getElem?_eq_getElem hi]
  · have hpos : 0 < l.length := List.length_pos.mpr h
    simp [ringHandOut, Nat.mod_self]
  · intro i
    simp [ringHandOut, Nat.add_mod_right]

/-- Witness for C7 at a concrete two-credential list. -/
theorem credentialRing_round_robin_witness :
    (([["h1", "25", "u1", "p1"], ["h2", "465", "u2", "p2"]] : List Cred)
        ≠ []) ∧
    ((List.range (([["h1", "25", "u1", "p1"],
          ["h2", "465", "u2", "p2"]] : List Cred)).length).map
        (ringHandOut [["h1", "25", "u1", "p1"], ["h2", "465", "u2", "p2"]]) =
      ([["h1", "25", "u1", "p1"], ["h2", "465", "u2", "p2"]] :
        List Cred).map some ∧
    ringHandOut [["h1", "25", "u1", "p1"], ["h2", "465", "u2", "p2"]]
        (([["h1", "25", "u1", "p1"],
          ["h2", "465", "u2", "p2"]] : List Cred)).length =
      (([["h1", "25", "u1", "p1"], ["h2", "465", "u2", "p2"]] :
        List Cred))[0]? ∧
    (∀ i, ringHandOut [["h1", "25", "u1", "p1"], ["h2", "465", "u2", "p2"]]
        (i + (([["h1", "25", "u1", "p1"],
          ["h2", "465", "u2", "p2"]] : List Cred)).length) =
      ringHandOut [["h1", "25", "u1", "p1"], ["h2", "465", "u2", "p2"]] i)) :=
  ⟨by simp, credentialRing_round_robin _ (by simp)⟩

/-! ## TransportClient: `send_email` (src/send.py lines 105-160).
Network behaviour is an oracle giving, for each attempt index and
connection mode, the outcome that executing this mode would have. -/

/-- The three connection modes of one attempt, in source order:
STARTTLS (lines 117-127), plain connection with login (lines 129-139),
SMTP over SSL (lines 141-151). -/
inductive Mode where
  | starttls
  | tls
  | ssl
deriving DecidableEq, Repr

/-- What executing one mode would do: complete the transmission
(`return True`), raise an `smtplib.SMTPException` (which the per-mode
handler at lines 126/138/150 catches), or raise any other exception
(`OSError`, `socket.timeout`, ..., caught only by the outer
`except Exception` at line 153). -/
inductive Outcome where
  | success
  | smtpError
  | otherError
deriving DecidableEq, Repr

/-- The fixed order in which one attempt tries the modes. -/
def modeLadder : List Mode := [Mode.starttls, Mode.tls, Mode.ssl]

/-- The inner mode ladder of one attempt: modes are executed in order;
a success returns immediately; an `smtplib.SMTPException` is caught by
the per-mode handler and control falls through to the next mode; any
other exception escapes to the outer handler (line 153), ending the
attempt with the remaining modes skipped.  Returns whether a mode
succeeded together with the modes actually executed, in order. -/
def runModes (f : Mode → Outcome) : List Mode → Bool × List Mode
  | [] => (false, [])
  | m :: ms =>
    match f m with
    | Outcome.success => (true, [m])
    | Outcome.smtpError =>
        let r := runModes f ms
        (r.1, m :: r.2)
    | Outcome.otherError => (false, [m])

/-- An entry of the execution trace of `send_email`: a mode executed
during some attempt with its outcome, or a `time.sleep`. -/
inductive Event where
  | tryMode (attempt : Nat) (m : Mode) (out : Outcome)
  | sleep (units : Nat)
deriving DecidableEq, Repr

def isSuccessEvent : Event → Bool
  | Event.tryMode _ _ Outcome.success => true
  | _ => false

/-- The executed-mode events of attempt `i`. -/
def attemptEvents (o : Nat → Mode → Outcome) (i : Nat) : List Event :=
  (runModes (o i) modeLadder).2.map (fun m => Event.tryMode i m (o i m))

/-- The attempt loop of `send_email` (lines 111-160): up to `fuel`
further attempts starting at attempt index `idx`.  A successful mode
returns `True` at once; otherwise `time.sleep(10)` runs at line 157
(also after the last attempt) and the next attempt starts; after all
attempts, the function returns `False`.  The result is the returned
boolean together with the trace of executed events. -/
def sendAttempts (o : Nat → Mode → Outcome) : Nat → Nat → Bool × List Event
  | _, 0 => (false, [])
  | idx, fuel + 1 =>
    let a := runModes (o idx) modeLadder
    if a.1 then (true, attemptEvents o idx)
    else
      let r := sendAttempts o (idx + 1) fuel
      (r.1, attemptEvents o idx ++ Event.sleep 10 :: r.2)

/-- `send_email`: 10 attempts starting at attempt 0 (line 111). -/
def send_email (o : Nat → Mode → Outcome) : Bool × List Event :=
  sendAttempts o 0 10

theorem runModes_false_no_success (f : Mode → Outcome) (ms : List Mode)
    (h : (runModes f ms).1 = false) :
    ∀ m ∈ (runModes f ms).2, f m ≠ Outcome.success := by
  induction ms with
  | nil => intro m hm; simp [runModes] at hm
  | cons m ms ih =>
      intro x hx
      rcases ho : f m with _ | _ | _ <;>
        rw [runModes, ho] at h hx
      · simp at h
      · simp only [List.mem_cons] at hx
        rcases hx with rfl | hx
        · simp [ho]
        · exact ih (by simpa using h) x hx
      · simp only [List.mem_cons, List.not_mem_nil, or_false] at hx
        subst hx; simp [ho]

theorem runModes_true_last_success (f : Mode → Outcome) (ms : List Mode)
    (h : (runModes f ms).1 = true) :
    ∃ l m, (runModes f ms).2 = l ++ [m] ∧ f m = Outcome.success ∧
      ∀ x ∈ l, f x ≠ Outcome.success := by
  induction ms with
  | nil => simp [runModes] at h
  | cons m ms ih =>
      rcases ho : f m with _ | _ | _ <;> rw [runModes, ho] at h ⊢
      · exact ⟨[], m, by simp, ho, by simp⟩
      · obtain ⟨l, x, hsplit, hx, hl⟩ := ih (by simpa using h)
        refine ⟨m :: l, x, by simp [hsplit], hx, ?_⟩
        intro y hy
        rcases List.mem_cons.mp hy with rfl | hy
        · simp [ho]
        · exact hl y hy
      · simp at h

theorem runModes_all_fail (f : Mode → Outcome) (ms : List Mode)
    (h : ∀ m, f m ≠ Outcome.success) :
    (runModes f ms).1 = false := by
  induction ms with
  | nil => rfl
  | cons m ms ih =>
      rcases ho : f m with _ | _ | _ <;> rw [runModes, ho]
      · exact absurd ho (h m)
      · simpa using ih

theorem sendAttempts_false_no_success (o : Nat → Mode → Outcome)
    (fuel idx : Nat) (h : (sendAttempts o idx fuel).1 = false) :
    ∀ ev ∈ (sendAttempts o idx fuel).2, isSuccessEvent ev = false := by
  induction fuel generalizing idx with
  | zero => intro ev hev; simp [sendAttempts] at hev
  | succ fuel ih =>
      intro ev hev
      rw [sendAttempts] at h hev
      by_cases ha : (runModes (o idx) modeLadder).1
      · rw [if_pos ha] at h; simp at h
      · rw [if_neg ha] at h hev
        simp only [List.mem_append, List.mem_cons] at hev
        rcases hev with hev | rfl | hev
        · simp only [attemptEvents, List.mem_map] at hev
          obtain ⟨m, hm, rfl⟩ := hev
          have := runModes_false_no_success (o idx) modeLadder
            (Bool.eq_false_iff.mpr ha) m hm
          rcases hmo : o idx m with _ | _ | _
          · exact absurd hmo this
          · simp [isSuccessEvent, hmo]
          · simp [isSuccessEvent, hmo]
        · rfl
        · exact ih (idx + 1) (by simpa using h) ev hev

theorem sendAttempts_true_success_last (o : Nat → Mode → Outcome)
    (fuel idx : Nat) (h : (sendAttempts o idx fuel).1 = true) :
    ∃ l i m, (sendAttempts o idx fuel).2 =
        l ++ [Event.tryMode i m Outcome.success] ∧
      o i m = Outcome.success ∧ ∀ ev ∈ l, isSuccessEvent ev = false := by
  induction fuel generalizing idx with
  | zero => simp [sendAttempts] at h
  | succ fuel ih =>
      rw [sendAttempts] at h ⊢
      by_cases ha : (runModes (o idx) modeLadder).1
      · rw [if_pos ha] at h ⊢
        obtain ⟨l, m, hsplit, hm, hl⟩ :=
          runModes_true_last_success (o idx) modeLadder ha
        refine ⟨l.map (fun x => Event.tryMode idx x (o idx x)), idx, m, ?_, hm, ?_⟩
        · simp [attemptEvents, hsplit, hm]
        · intro ev hev
          simp only [List.mem_map] at hev
          obtain ⟨x, hx, rfl⟩ := hev
          rcases hxo : o idx x with _ | _ | _
          · exact absurd hxo (hl x hx)
          · simp [isSuccessEvent, hxo]
          · simp [isSuccessEvent, hxo]
      · rw [if_neg ha] at h ⊢
        obtain ⟨l, i, m, hsplit, hm, hl⟩ := ih (idx + 1) (by simpa using h)
        refine ⟨attemptEvents o idx ++ Event.sleep 10 :: l, i, m, ?_, hm, ?_⟩
        · simp [hsplit]
        · intro ev hev
          simp only [List.mem_append, List.mem_cons] at hev
          rcases hev with hev | rfl | hev
          · simp only [attemptEvents, List.mem_map] at hev
            obtain ⟨x, hx, rfl⟩ := hev
            have := runModes_false_no_success (o idx) modeLadder
              (Bool.eq_false_iff.mpr ha) x hx
            rcases hxo : o idx x with _ | _ | _
            · exact absurd hxo this
            · simp [isSuccessEvent, hxo]
            · simp [isSuccessEvent, hxo]
          · rfl
          · exact hl ev hev

theorem flatMap_range_succ_shift (f : Nat → List Event) (n : Nat) :
    (List.range (n + 1)).flatMap f =
      f 0 ++ (List.range n).flatMap (fun j => f (j + 1)) := by
  rw [List.range_succ_eq_map, List.flatMap_cons, List.flatMap_map]

theorem sendAttempts_all_fail_shape (o : Nat → Mode → Outcome)
    (h : ∀ i m, o i m ≠ Outcome.success) (fuel idx : Nat) :
    sendAttempts o idx fuel =
      (false, (List.range fuel).flatMap
        (fun j => attemptEvents o (idx + j) ++ [Event.sleep 10])) := by
  induction fuel generalizing idx with
  | zero => simp [sendAttempts]
  | succ fuel ih =>
      have harg : (fun j => attemptEvents o (idx + 1 + j) ++ [Event.sleep 10])
          = fun j => attemptEvents o (idx + (j + 1)) ++ [Event.sleep 10] := by
        funext j
        rw [show idx + 1 + j = idx + (j + 1) by omega]
      rw [sendAttempts,
        if_neg (by simp [runModes_all_fail (o idx) modeLadder (h idx)]),
        ih (idx + 1), flatMap_range_succ_shift, harg]
      simp [List.append_assoc]

/-- The number of exhausted (failed) attempts the loop of `send_email`
runs through before succeeding or giving up. -/
def failedCount (o : Nat → Mode → Outcome) : Nat → Nat → Nat
  | _, 0 => 0
  | idx, fuel + 1 =>
    if (runModes (o idx) modeLadder).1 then 0
    else 1 + failedCount o (idx + 1) fuel

theorem sendAttempts_trace_shape (o : Nat → Mode → Outcome)
    (fuel idx : Nat) :
    (sendAttempts o idx fuel).2 =
      (List.range (failedCount o idx fuel)).flatMap
        (fun j => attemptEvents o (idx + j) ++ [Event.sleep 10]) ++
      (if (sendAttempts o idx fuel).1 then
        attemptEvents o (idx + failedCount o idx fuel) else []) := by
  induction fuel generalizing idx with
  | zero => simp [sendAttempts, failedCount]
  | succ fuel ih =>
      by_cases h : (runModes (o idx) modeLadder).1
      · rw [sendAttempts, if_pos h, failedCount, if_pos h]
        simp
      · have harg : (fun j => attemptEvents o (idx + 1 + j) ++ [Event.sleep 10])
            = fun j => attemptEvents o (idx + (j + 1)) ++ [Event.sleep 10] := by
          funext j
          rw [show idx + 1 + j = idx + (j + 1) by omega]
        rw [sendAttempts, if_neg h, failedCount, if_neg h]
        simp only [ih (idx + 1), harg]
        rw [Nat.add_comm 1 (failedCount o (idx + 1) fuel),
          flatMap_range_succ_shift,
          show idx + 1 + failedCount o (idx + 1) fuel =
            idx + (failedCount o (idx + 1) fuel + 1) by omega]
        simp [List.append_assoc]

/-- C2 counterexample: with every mode failing with a non-SMTP
exception (e.g. connection refused or a socket timeout, which the
per-mode handlers at lines 126/138/150 do not catch), mode (a) fails
on the first attempt yet mode (b) is never attempted: the whole
10-attempt trace consists only of STARTTLS tries and sleeps.  This
refutes the claim that whenever mode (a) fails for any reason mode
(b) is attempted before the attempt is exhausted. -/
theorem starttls_nonprotocol_failure_skips_remaining_modes :
    ((fun _ _ => Outcome.otherError) : Nat → Mode → Outcome) 0 Mode.starttls
        ≠ Outcome.success ∧
    (send_email (fun _ _ => Outcome.otherError)).1 = false ∧
    (send_email (fun _ _ => Outcome.otherError)).2 =
      (List.range 10).flatMap
        (fun i => [Event.tryMode i Mode.starttls Outcome.otherError,
          Event.sleep 10]) := by
  refine ⟨by decide, by decide, by decide⟩

/-- C2 (amended): within each attempt the three modes are tried in the
fixed order (a) STARTTLS, (b) authenticated-plaintext, (c) implicit
SSL, stopping at the first success; after a mode fails, the next mode
is attempted if and only if the failure is an SMTP
protocol/authentication error (an `smtplib.SMTPException`, caught by
the per-mode handler); a failure of any other kind (connection
refused, timeout, ...) aborts the remaining modes of that attempt,
which then proceeds to the next attempt. -/
theorem mode_ladder_per_attempt (f : Mode → Outcome) :
    (f Mode.starttls = Outcome.success →
      runModes f modeLadder = (true, [Mode.starttls])) ∧
    (f Mode.starttls = Outcome.otherError →
      runModes f modeLadder = (false, [Mode.starttls])) ∧
    (f Mode.starttls = Outcome.smtpError → f Mode.tls = Outcome.success →
      runModes f modeLadder = (true, [Mode.starttls, Mode.tls])) ∧
    (f Mode.starttls = Outcome.smtpError → f Mode.tls = Outcome.otherError →
      runModes f modeLadder = (false, [Mode.starttls, Mode.tls])) ∧
    (f Mode.starttls = Outcome.smtpError → f Mode.tls = Outcome.smtpError →
      runModes f modeLadder =
        (f Mode.ssl == Outcome.success,
          [Mode.starttls, Mode.tls, Mode.ssl])) := by
  refine ⟨fun h1 => ?_, fun h1 => ?_, fun h1 h2 => ?_, fun h1 h2 => ?_,
    fun h1 h2 => ?_⟩
  · simp [runModes, modeLadder, h1]
  · simp [runModes, modeLadder, h1]
  · simp [runModes, modeLadder, h1, h2]
  · simp [runModes, modeLadder, h1, h2]
  · rcases h3 : f Mode.ssl with _ | _ | _ <;>
      simp [runModes, modeLadder, h1, h2, h3]

/-- Witness for C2 (amended): a concrete attempt in which (a) and (b)
fail with protocol errors and (c) succeeds executes all three modes in
order and succeeds. -/
theorem mode_ladder_per_attempt_witness :
    runModes (fun m => match m with
      | Mode.starttls => Outcome.smtpError
      | Mode.tls => Outcome.smtpError
      | Mode.ssl => Outcome.success) modeLadder =
      (true, [Mode.starttls, Mode.tls, Mode.ssl]) := by
  have h := mode_ladder_per_attempt (fun m => match m with
      | Mode.starttls => Outcome.smtpError
      | Mode.tls => Outcome.smtpError
      | Mode.ssl => Outcome.success)
  simpa using h.2.2.2.2 rfl rfl

/-- C3: (i) `send_email` returns True exactly when some executed mode
of some attempt completed the transmission; (ii) when it returns True,
the successful transmission is the very last executed event — no
further mode, sleep, or attempt follows it; (iii) when no mode would
ever succeed, all 10 attempts are executed, the call returns False,
and the trace is the 10 attempts separated (and, as the source's
line-157 sleep also runs after the last attempt, followed) by fixed
`sleep 10` events; (iv) in general the trace is the executed failed
attempts, each followed by a fixed `sleep 10` — so a fixed 10
time-unit wait lies between any two consecutive exhausted attempts —
then the successful attempt, if any, with no sleep after it. -/
theorem send_email_result_spec (o : Nat → Mode → Outcome) :
    ((send_email o).1 = true ↔
      ∃ ev ∈ (send_email o).2, isSuccessEvent ev = true) ∧
    ((send_email o).1 = true →
      ∃ l i m, (send_email o).2 = l ++ [Event.tryMode i m Outcome.success] ∧
        o i m = Outcome.success ∧ ∀ ev ∈ l, isSuccessEvent ev = false) ∧
    ((∀ i m, o i m ≠ Outcome.success) →
      (send_email o).1 = false ∧
      (send_email o).2 = (List.range 10).flatMap
        (fun i => attemptEvents o i ++ [Event.sleep 10])) ∧
    ((send_email o).2 =
      (List.range (failedCount o 0 10)).flatMap
        (fun i => attemptEvents o i ++ [Event.sleep 10]) ++
      (if (send_email o).1 then attemptEvents o (failedCount o 0 10)
        else [])) := by
  simp only [send_email]
  have hT := sendAttempts_true_success_last o 10 0
  have hF := sendAttempts_false_no_success o 10 0
  have hshape := sendAttempts_trace_shape o 10 0
  simp only [Nat.zero_add] at hshape
  refine ⟨⟨?_, ?_⟩, hT, ?_, hshape⟩
  · intro h
    obtain ⟨l, i, m, hsplit, hm, hl⟩ := hT h
    exact ⟨Event.tryMode i m Outcome.success, by simp [hsplit], rfl⟩
  · rintro ⟨ev, hev, hsucc⟩
    by_contra hfalse
    have hf : (sendAttempts o 0 10).1 = false := Bool.eq_false_iff.mpr hfalse
    rw [hF hf ev hev] at hsucc
    exact Bool.false_ne_true hsucc
  · intro h
    have hsh := sendAttempts_all_fail_shape o h 10 0
    simp only [Nat.zero_add] at hsh
    exact ⟨by rw [hsh], by rw [hsh]⟩

/-- Witness for C3 at the concrete always-SMTP-failing oracle. -/
theorem send_email_result_spec_witness :
    (send_email (fun _ _ => Outcome.smtpError)).1 = false ∧
    (send_email (fun _ _ => Outcome.smtpError)).2 =
      (List.range 10).flatMap
        (fun i => attemptEvents (fun _ _ => Outcome.smtpError) i ++
          [Event.sleep 10]) :=
  (send_email_result_spec (fun _ _ => Outcome.smtpError)).2.2.1
    (fun _ _ h => Outcome.noConfusion h)

/-! ## The unguarded credential unpacking of the task path
(src/send.py lines 106-107 and 166-167).  `email_task` has no
exception handler, `smtp_detail[2]` at line 167 and the tuple
unpacking plus `int(smtp_port)` at lines 106-107 run before the
`try` of the attempt loop, so an exception raised there escapes the
worker. -/

/-- `send_email` including its prologue: unpack the credential tuple
(line 106; `ValueError` unless it has exactly four fields) and convert
the port with `int` (line 107; `ValueError` if non-numeric).  Only
then does the guarded attempt loop run, whose failures are all
absorbed into the returned boolean. -/
def send_email_checked (smtp_detail : Cred) (o : Nat → Mode → Outcome) :
    Except String (Bool × List Event) :=
  match smtp_detail with
  | [_server, port, _user, _password] =>
    match pythonInt port with
    | none => Except.error ("ValueError: invalid literal for int()")
    | some _ => Except.ok (sendAttempts o 0 10)
  | _ => Except.error ("ValueError: cannot unpack smtp_detail")

/-- `email_task` (lines 164-180) as seen from the worker: it reads
`smtp_detail[2]` (line 167; `IndexError` if the tuple is shorter) and
calls `send_email`; it installs no handler, so any exception raised by
either escapes the worker. -/
def email_task_checked (smtp_detail : Cred) (o : Nat → Mode → Outcome) :
    Except String Bool :=
  match smtp_detail[2]? with
  | none => Except.error ("IndexError: smtp_detail[2]")
  | some _from_email => (send_email_checked smtp_detail o).map Prod.fst

/-- C4 counterexample: for the credential `("h", "abc", "u", "p")` —
whose port field is not numeric — the dispatch task raises
`ValueError` out of the worker (the `int(smtp_port)` at line 107 runs
outside every handler), refuting the claim that a task never lets an
exception escape for any input. -/
theorem email_task_nonnumeric_port_escapes :
    email_task_checked ["h", "abc", "u", "p"]
        (fun _ _ => Outcome.otherError) =
      Except.error ("ValueError: invalid literal for int()") := by
  rfl

/-- C4 (amended): for every well-formed credential — exactly four
fields and a numeric port — no exception escapes the task: every
per-attempt error is absorbed and converted into the boolean result.
A malformed credential (fewer/more than four fields, or a non-numeric
port), however, raises during the unguarded prologue and escapes the
worker. -/
theorem email_task_absorbs_errors (server port user password : String)
    (o : Nat → Mode → Outcome) (hport : (pythonInt port).isSome) :
    email_task_checked [server, port, user, password] o =
      Except.ok (sendAttempts o 0 10).1 := by
  obtain ⟨p, hp⟩ := Option.isSome_iff_exists.mp hport
  simp [email_task_checked, send_email_checked, hp, Except.map]

/-- Witness for C4 (amended) at a concrete well-formed credential. -/
theorem email_task_absorbs_errors_witness :
    ((pythonInt "587").isSome = true) ∧
    email_task_checked ["smtp.example.com", "587", "u@example.com", "pw"]
        (fun _ _ => Outcome.smtpError) =
      Except.ok (sendAttempts (fun _ _ => Outcome.smtpError) 0 10).1 :=
  ⟨by decide, email_task_absorbs_errors _ _ _ _ _ (by decide)⟩

/-! ## Message construction: `create_message` (src/send.py lines
78-102), invoked afresh at the top of every attempt (line 113). -/

/-- The standard base64 alphabet. -/
def base64Alphabet : List Char :=
  "ABCDEFGHIJKLMNOPQRSTUVWXYZabcdefghijklmnopqrstuvwxyz0123456789+/".toList

/-- `encoders.encode_base64` on the attachment bytes (the 76-column
line wrapping done by the MIME encoder is not modelled). -/
def encode_base64 : List Nat → List Char
  | [] => []
  | [b1] =>
      [base64Alphabet.getD (b1 / 4) '=',
       base64Alphabet.getD (b1 % 4 * 16) '=', '=', '=']
  | [b1, b2] =>
      [base64Alphabet.getD (b1 / 4) '=',
       base64Alphabet.getD (b1 % 4 * 16 + b2 / 16) '=',
       base64Alphabet.getD (b2 % 16 * 4) '=', '=']
  | b1 :: b2 :: b3 :: rest =>
      base64Alphabet.getD (b1 / 4) '=' ::
      base64Alphabet.getD (b1 % 4 * 16 + b2 / 16) '=' ::
      base64Alphabet.getD (b2 % 16 * 4 + b3 / 64) '=' ::
      base64Alphabet.getD (b3 % 64) '=' ::
      encode_base64 rest

/-- `os.path.basename` for POSIX paths (src/send.py line 96). -/
def basename (p : String) : String :=
  (p.splitOn "/").getLastD p

/-- The base64-encoded attachment part built at lines 90-98. -/
structure AttachmentPart where
  payload : List Char
  filename : String
deriving DecidableEq, Repr

/-- The value of the `MIMEMultipart` message built by `create_message`:
From/To/Subject headers, the HTML body part, and the optional
attachment part. -/
structure Message where
  fromAddr : String
  toAddr : String
  subject : String
  htmlBody : String
  attachment : Option AttachmentPart
deriving DecidableEq, Repr

/-- `create_message` (lines 78-102).  `fs` is the file system seen by
the `open(attachment_path, 'rb')` at line 90: the bytes of each
readable path.  A read failure is caught at lines 99-100 and the
message is returned without the attachment part. -/
def create_message (subject body from_email to_email : String)
    (attachment_path : Option String) (fs : String → Option (List Nat)) :
    Message :=
  { fromAddr := from_email
    toAddr := to_email
    subject := subject
    htmlBody := body
    attachment :=
      match attachment_path with
      | none => none
      | some p =>
        match fs p with
        | none => none
        | some bytes =>
          some { payload := encode_base64 bytes, filename := basename p } }

/-- How many attempts the loop of `send_email` executes. -/
def attemptsExecuted (o : Nat → Mode → Outcome) : Nat → Nat → Nat
  | _, 0 => 0
  | idx, fuel + 1 =>
    if (runModes (o idx) modeLadder).1 then 1
    else 1 + attemptsExecuted o (idx + 1) fuel

/-- The message used by each executed attempt, as the source computes
it: a fresh `create_message` at the top of every attempt (line 113).
The file-system oracle `fs` is fixed for the whole call (the external
attachment file is not modified mid-run). -/
def messagesPerAttempt (o : Nat → Mode → Outcome)
    (subject body from_email to_email : String) (ap : Option String)
    (fs : String → Option (List Nat)) : Nat → Nat → List Message
  | _, 0 => []
  | idx, fuel + 1 =>
    let msg := create_message subject body from_email to_email ap fs
    if (runModes (o idx) modeLadder).1 then [msg]
    else msg :: messagesPerAttempt o subject body from_email to_email ap fs
      (idx + 1) fuel

/-- Modelled from the spec (refinement side): the message is
"constructed once per dispatch run and reused read-only" — one
up-front `create_message`, shared by every executed attempt. -/
def messagesOnceSpec (o : Nat → Mode → Outcome)
    (subject body from_email to_email : String) (ap : Option String)
    (fs : String → Option (List Nat)) (idx fuel : Nat) : List Message :=
  List.replicate (attemptsExecuted o idx fuel)
    (create_message subject body from_email to_email ap fs)

theorem messagesPerAttempt_eq_once (o : Nat → Mode → Outcome)
    (subject body from_email to_email : String) (ap : Option String)
    (fs : String → Option (List Nat)) (fuel idx : Nat) :
    messagesPerAttempt o subject body from_email to_email ap fs idx fuel =
      messagesOnceSpec o subject body from_email to_email ap fs idx fuel := by
  induction fuel generalizing idx with
  | zero => rfl
  | succ fuel ih =>
      rw [messagesPerAttempt, messagesOnceSpec, attemptsExecuted]
      by_cases h : (runModes (o idx) modeLadder).1
      · rw [if_pos h, if_pos h]; rfl
      · rw [if_neg h, if_neg h, ih, Nat.add_comm 1 _, List.replicate_succ]
        rfl

/-- C9: the per-attempt message construction `send_email` performs
(a fresh `create_message` at line 113 on each of its up-to-10
attempts) is observationally equal to constructing the message once up
front and sharing that single immutable value across every attempt:
with the message inputs and the external attachment file fixed for the
run, every executed attempt uses the identical message value. -/
theorem message_constructed_once (o : Nat → Mode → Outcome)
    (subject body from_email to_email : String) (ap : Option String)
    (fs : String → Option (List Nat)) :
    messagesPerAttempt o subject body from_email to_email ap fs 0 10 =
      List.replicate (attemptsExecuted o 0 10)
        (create_message subject body from_email to_email ap fs) :=
  messagesPerAttempt_eq_once o subject body from_email to_email ap fs 10 0

/-! ## Recipient store rewrite: `remove_email_from_list`
(src/send.py lines 183-194) and `load_email_addresses` (lines 48-55). -/

/-- The set comprehension at line 186: the set of stripped lines that
are non-blank and pass `is_valid_email`.  It fully determines what a
rewrite writes back, so it is the observable content of a store
file. -/
def validSet (lines : List String) : Finset String :=
  ((lines.map pythonStrip).filter
    (fun s => !s.toList.isEmpty && is_valid_email s)).toFinset

/-- `load_email_addresses` (lines 48-55): the set of stripped lines
passing `is_valid_email`. -/
def load_email_addresses (lines : List String) : Finset String :=
  ((lines.map pythonStrip).filter (fun s => is_valid_email s)).toFinset

/-- `remove_email_from_list` (lines 183-194): read the file, build the
set of valid lines, and only if the email is a member, remove it and
rewrite the whole file from the set (`none` = the file is not
rewritten).  The write-back enumerates a Python set, so only the
resulting set of lines is defined — the original order is not. -/
def remove_email_from_list (lines : List String) (email : String) :
    Option (Finset String) :=
  let emails := validSet lines
  if email ∈ emails then some (emails.erase email) else none

theorem mem_validSet (lines : List String) (s : String) :
    s ∈ validSet lines ↔
      (∃ l ∈ lines, pythonStrip l = s) ∧
        (!s.toList.isEmpty && is_valid_email s) = true := by
  simp only [validSet, List.mem_toFinset, List.mem_filter, List.mem_map]

/-- C10: when the removed recipient is present among the file's valid
lines, the file is rewritten to exactly that set minus the recipient —
so every blank line and every line failing the `@`-and-`.` check is
silently dropped, and the content is determined by the unordered set
of valid lines alone (any two line lists with the same valid-set, in
particular any reordering, produce the identical rewrite — the
original line order is not preserved); when the recipient is absent,
the file is not rewritten at all. -/
theorem remove_email_rewrite_spec (lines : List String) (email : String) :
    (email ∉ validSet lines → remove_email_from_list lines email = none) ∧
    (email ∈ validSet lines →
      remove_email_from_list lines email =
        some ((validSet lines).erase email)) ∧
    (∀ s ∈ (validSet lines).erase email,
      s ≠ "" ∧ is_valid_email s = true ∧ s ≠ email) ∧
    (∀ lines₂, validSet lines₂ = validSet lines →
      remove_email_from_list lines₂ email =
        remove_email_from_list lines email) ∧
    (∀ lines₂, lines.Perm lines₂ → validSet lines = validSet lines₂) := by
  refine ⟨?_, ?_, ?_, ?_, ?_⟩
  · intro h; simp [remove_email_from_list, h]
  · intro h; simp [remove_email_from_list, h]
  · intro s hs
    obtain ⟨hne, hmem⟩ := Finset.mem_erase.mp hs
    obtain ⟨-, hcond⟩ := (mem_validSet lines s).mp hmem
    obtain ⟨hblank, hvalid⟩ := Bool.and_eq_true_iff.mp hcond
    refine ⟨?_, hvalid, hne⟩
    intro hempty
    subst hempty
    simp at hblank
  · intro lines₂ h
    simp only [remove_email_from_list, h]
  · intro lines₂ hperm
    apply Finset.ext
    intro s
    rw [mem_validSet, mem_validSet]
    constructor
    · rintro ⟨⟨l, hl, hls⟩, hcond⟩
      exact ⟨⟨l, hperm.mem_iff.mp hl, hls⟩, hcond⟩
    · rintro ⟨⟨l, hl, hls⟩, hcond⟩
      exact ⟨⟨l, hperm.mem_iff.mpr hl, hls⟩, hcond⟩

/-- Witness for C10 at a concrete file with a blank line, an invalid
line, and surrounding whitespace. -/
theorem remove_email_rewrite_spec_witness :
    ("a@x.com" ∈ validSet ["a@x.com", " b@x.com ", "", "not-valid"]) ∧
    remove_email_from_list ["a@x.com", " b@x.com ", "", "not-valid"]
        "a@x.com" =
      some ((validSet ["a@x.com", " b@x.com ", "", "not-valid"]).erase
        "a@x.com") :=
  ⟨by decide,
    (remove_email_rewrite_spec ["a@x.com", " b@x.com ", "", "not-valid"]
      "a@x.com").2.1 (by decide)⟩

/-! ## The per-task store effect (src/send.py lines 169-180). -/

/-- The file-store effect of one completed `email_task`: on success it
calls `remove_email_from_list('senders.txt', to_email)` (line 170) —
the file name is the fixed string, independent of the file the
recipient list was loaded from — rewriting that one file if the
recipient is present in it; on failure no file is touched.  The
post-state maps each file name to the set of valid lines it then
holds. -/
def emailTaskStoreEffect (success : Bool) (files : String → List String)
    (to_email : String) : String → Finset String :=
  if success then
    fun f =>
      if f = "senders.txt" then
        (remove_email_from_list (files f) to_email).getD (validSet (files f))
      else validSet (files f)
  else fun f => validSet (files f)

/-- C5 counterexample: recipients loaded (via the `email_file` CLI
argument, src/send.py lines 260, 265) from `recipients.txt`; the
delivery to `a@x.com` succeeds, yet `a@x.com` still sits in
`recipients.txt` afterwards — the removal at line 170 targets the
hard-coded `senders.txt`, not the store the recipient was loaded
from.  This refutes the claim that a successful delivery removes the
recipient from the pending-recipient store it was loaded from. -/
theorem success_removal_misses_load_store :
    ("a@x.com" ∈ load_email_addresses
      ((fun f => if f = "recipients.txt" then ["a@x.com"] else [])
        "recipients.txt")) ∧
    ("a@x.com" ∈ emailTaskStoreEffect true
      (fun f => if f = "recipients.txt" then ["a@x.com"] else [])
      "a@x.com" "recipients.txt") := by
  refine ⟨by decide, by decide⟩

/-- C5 (amended): the removal targets the fixed file `senders.txt`
(the store the recipients were loaded from only under the default
configuration): after a successful delivery the recipient is no
longer among the valid lines of `senders.txt` — removed by the single
rewrite the task performs, which happens immediately after the
success and leaves every other file untouched — while after a failed
delivery no file changes, so the recipient remains in its store. -/
theorem email_task_store_effect_spec (files : String → List String)
    (to_email : String) :
    (to_email ∉ emailTaskStoreEffect true files to_email "senders.txt") ∧
    (to_email ∈ validSet (files "senders.txt") →
      emailTaskStoreEffect true files to_email "senders.txt" =
        (validSet (files "senders.txt")).erase to_email) ∧
    (∀ f, f ≠ "senders.txt" →
      emailTaskStoreEffect true files to_email f = validSet (files f)) ∧
    (∀ f, emailTaskStoreEffect false files to_email f =
      validSet (files f)) := by
  refine ⟨?_, ?_, ?_, ?_⟩
  · simp only [emailTaskStoreEffect, if_pos rfl, remove_email_from_list]
    by_cases h : to_email ∈ validSet (files "senders.txt")
    · simp [h]
    · simp [h]
  · intro h
    simp [emailTaskStoreEffect, remove_email_from_list, h]
  · intro f hf
    simp [emailTaskStoreEffect, hf]
  · intro f
    simp [emailTaskStoreEffect]

/-- Witness for C5 (amended) at a concrete default-configuration
store. -/
theorem email_task_store_effect_spec_witness :
    ("a@x.com" ∈ validSet
      ((fun f => if f = "senders.txt" then ["a@x.com", "b@y.org"] else [])
        "senders.txt")) ∧
    emailTaskStoreEffect true
        (fun f => if f = "senders.txt" then ["a@x.com", "b@y.org"] else [])
        "a@x.com" "senders.txt" =
      (validSet
        ((fun f => if f = "senders.txt" then ["a@x.com", "b@y.org"] else [])
          "senders.txt")).erase "a@x.com" :=
  ⟨by decide,
    (email_task_store_effect_spec
      (fun f => if f = "senders.txt" then ["a@x.com", "b@y.org"] else [])
      "a@x.com").2.1 (by decide)⟩

end Send
